import Mathlib

/-!
Shallow embedding of the multi-threaded library management system
(`src/MP2_Problem_2.cpp`, second translation unit: the `Library` class and
its `RWLock`) together with the hospital system's `LockMonitor` from the
first translation unit.  Machine `int`s are modelled as `Int`; the C++
`std::vector`s become `List`s; the sentinel `-1` returned by
`findBookIndex` becomes `Option Nat`.  Blocking primitives are modelled by
their monitor state: the internal `std::mutex` of `RWLock` is held only
transiently inside its member functions, so a probe at a quiescent instant
sees it free and only the fields `activeReaders` / `waitingWriters` /
`writerActive` decide the outcome.
-/

namespace MP2

/-- Record type for `struct Book`: title, author, count, id. -/
structure Book where
  title : String
  author : String
  count : Int
  id : Int
deriving Repr, DecidableEq

/-- Record type for `struct Account`: identity fields, credential, flags and the ledger
`vector<int> borrowedBookIds` of currently borrowed book ids. -/
structure Account where
  username : String
  firstName : String
  middleName : String
  lastName : String
  password : String
  id : Int
  loggedIn : Bool
  isAdmin : Bool
  borrowedBookIds : List Int
deriving Repr, DecidableEq

/-- Default used for out-of-range `getD` reads; every lemma that reads an
element supplies a bound making the default irrelevant. -/
def defBook : Book := ⟨"", "", 0, 0⟩

def defAccount : Account := ⟨"", "", "", "", "", 0, false, false, []⟩

/-- The monitor state of `RWLock`: `int activeReaders`,
`int waitingWriters`, `bool writerActive`. -/
structure RWLockState where
  activeReaders : Int
  waitingWriters : Int
  writerActive : Bool
deriving Repr, DecidableEq

/-- Embedding of `RWLock::tryLockWrite`: fails (returning the state unchanged) when a
writer is active or any reader is active, otherwise sets `writerActive`.
The `!lk.owns_lock()` early exit concerns the transiently held internal
mutex, which is free at a quiescent probe instant. -/
def tryLockWrite (s : RWLockState) : Bool × RWLockState :=
  if s.writerActive ∨ s.activeReaders > 0 then (false, s)
  else (true, { s with writerActive := true })

/-- Embedding of `RWLock::unlockWrite`: clears the active-writer flag (and broadcasts,
which has no monitor-state effect). -/
def unlockWrite (s : RWLockState) : RWLockState :=
  { s with writerActive := false }

/-- Embedding of `Library::findBookIndex`: first index whose title matches, else the
`-1` sentinel, rendered as `Option Nat`. -/
def findBookIndex : List Book → String → Option Nat
  | [], _ => none
  | b :: bs, t =>
    if b.title = t then some 0
    else (findBookIndex bs t).map (· + 1)

/-- Embedding of `Library::addBook`: appends the record with fields t, a, c and
id `books.size() + 1` under the
write lock and reports the new record.  No title-uniqueness check and no
quantity validation is performed. -/
def addBook (books : List Book) (t a : String) (c : Int) : List Book × Int :=
  (books ++ [⟨t, a, c, (books.length : Int) + 1⟩], (books.length : Int) + 1)

inductive UpdateResult
  | ok
  | notFound
deriving Repr, DecidableEq

/-- Embedding of `Library::updateBook`: resolve the title; on success overwrite title,
author and count in place (the id field is untouched). -/
def updateBook (books : List Book) (t newT newA : String) (newC : Int) :
    UpdateResult × List Book :=
  match findBookIndex books t with
  | none => (.notFound, books)
  | some idx =>
    (.ok, books.set idx { title := newT, author := newA, count := newC,
                          id := (books.getD idx defBook).id })

inductive RemoveResult
  | ok
  | notFound
deriving Repr, DecidableEq

/-- Embedding of `Library::removeBook`: resolve the title and erase that record. -/
def removeBook (books : List Book) (t : String) : RemoveResult × List Book :=
  match findBookIndex books t with
  | none => (.notFound, books)
  | some idx => (.ok, books.eraseIdx idx)

inductive BorrowResult
  | ok (id : Int)
  | notFound
  | busy
  | waiting
  | unavailable
deriving Repr, DecidableEq

/-- Embedding of `Library::borrowBook` up to its suspension point.  The lock is probed
with `tryLockWrite` (failure → "Library busy", no state change); then the
title is resolved; a record with `count == 0` sends the caller to the
condition-variable wait (modelled as the `waiting` outcome with the write
lock released, where the sequential model stops); a positive count is
decremented and the book id pushed onto `accounts[uid].borrowedBookIds`;
any other (negative) count prints "Still unavailable". -/
def borrowBook (lock : RWLockState) (books : List Book)
    (accounts : List Account) (uid : Nat) (t : String) :
    BorrowResult × RWLockState × List Book × List Account :=
  match tryLockWrite lock with
  | (false, l1) => (.busy, l1, books, accounts)
  | (true, l1) =>
    match findBookIndex books t with
    | none => (.notFound, unlockWrite l1, books, accounts)
    | some idx =>
      let b := books.getD idx defBook
      if b.count = 0 then
        (.waiting, unlockWrite l1, books, accounts)
      else if b.count > 0 then
        let a := accounts.getD uid defAccount
        (.ok b.id, unlockWrite l1,
         books.set idx { b with count := b.count - 1 },
         accounts.set uid { a with borrowedBookIds := a.borrowedBookIds ++ [b.id] })
      else
        (.unavailable, unlockWrite l1, books, accounts)

inductive ReturnResult
  | ok
  | notFound
  | notBorrowedByCaller
deriving Repr, DecidableEq

/-- Embedding of `Library::returnBook`: under the (blocking, hence net-neutral) write
lock, resolve the title; if the caller's ledger holds the book id,
increment the count and erase the first ledger occurrence (`std::find` +
`erase`); otherwise refuse with no state change.  Finally the lock is
released and `bookCv.notify_all()` wakes all borrow waiters. -/
def returnBook (books : List Book) (accounts : List Account) (uid : Nat)
    (t : String) : ReturnResult × List Book × List Account :=
  match findBookIndex books t with
  | none => (.notFound, books, accounts)
  | some idx =>
    let b := books.getD idx defBook
    let a := accounts.getD uid defAccount
    if b.id ∈ a.borrowedBookIds then
      (.ok, books.set idx { b with count := b.count + 1 },
       accounts.set uid { a with borrowedBookIds := a.borrowedBookIds.erase b.id })
    else
      (.notBorrowedByCaller, books, accounts)

/-- Embedding of `Library::checkAvailability`: the count of the resolved record, or the
not-found sentinel. -/
def checkAvailability (books : List Book) (t : String) : Option Int :=
  (findBookIndex books t).map (fun idx => (books.getD idx defBook).count)

/-- The three independently tracked resource-busy flags of the hospital
system's `LockMonitor` (first translation unit). -/
structure LockMonitor where
  patientLock : Bool
  appointmentLock : Bool
  recordLock : Bool
deriving Repr, DecidableEq

inductive DeadlockReport
  | suspect
  | clear
deriving Repr, DecidableEq

/-- Embedding of `LockMonitor::checkDeadlocks`: reports a potential deadlock exactly when all
three flags are set, otherwise "No deadlocks detected". -/
def checkDeadlocks (m : LockMonitor) : DeadlockReport :=
  if m.patientLock ∧ m.appointmentLock ∧ m.recordLock then .suspect
  else .clear

/-- Embedding of `Library::detectDeadlocks`, a stub: it unconditionally prints
"No deadlocks detected". -/
def detectDeadlocks : DeadlockReport := .clear

/-! ## RWLock as a labelled transition system

`lockRead`, `unlockRead`, `lockWrite`, `unlockWrite` and `tryLockWrite`
act on the monitor state.  `lockWrite` is split at its wait point into
`writerArrive` (`++waitingWriters`, always enabled) and `writerEnter`
(fires when the `cv.wait` predicate `!writerActive && activeReaders == 0`
holds for a waiting writer).  `lockRead` fires only when its predicate
`!writerActive && waitingWriters == 0` holds. -/

inductive RWLabel
  | readAcquire
  | readRelease
  | writerArrive
  | writerEnter
  | writerRelease
  | tryWriteSucceed
  | tryWriteFail
deriving Repr, DecidableEq

inductive RWStep : RWLabel → RWLockState → RWLockState → Prop
  | readAcquire (s : RWLockState)
      (h : s.writerActive = false ∧ s.waitingWriters = 0) :
      RWStep .readAcquire s { s with activeReaders := s.activeReaders + 1 }
  | readRelease (s : RWLockState) :
      RWStep .readRelease s { s with activeReaders := s.activeReaders - 1 }
  | writerArrive (s : RWLockState) :
      RWStep .writerArrive s { s with waitingWriters := s.waitingWriters + 1 }
  | writerEnter (s : RWLockState)
      (h : s.writerActive = false ∧ s.activeReaders = 0 ∧ s.waitingWriters > 0) :
      RWStep .writerEnter s
        { s with waitingWriters := s.waitingWriters - 1, writerActive := true }
  | writerRelease (s : RWLockState) :
      RWStep .writerRelease s { s with writerActive := false }
  | tryWriteSucceed (s : RWLockState)
      (h : ¬ (s.writerActive ∨ s.activeReaders > 0)) :
      RWStep .tryWriteSucceed s { s with writerActive := true }
  | tryWriteFail (s : RWLockState)
      (h : s.writerActive ∨ s.activeReaders > 0) :
      RWStep .tryWriteFail s s

/-- The freshly constructed lock: no readers, no waiting writers, no
active writer. -/
def rwInit : RWLockState := ⟨0, 0, false⟩

/-- States reachable from the initial lock state by any sequence of
steps. -/
def RWReachable (s : RWLockState) : Prop :=
  Relation.ReflTransGen (fun x y => ∃ l, RWStep l x y) rwInit s

/-! ## Conserved quantity for claim C1 -/

/-- Total catalog stock carried by records with the given id. -/
def stockFor (books : List Book) (j : Int) : Int :=
  (books.map (fun b => if b.id = j then b.count else 0)).sum

/-- Number of outstanding loans of the given id across all accounts'
ledgers. -/
def outstanding (accounts : List Account) (j : Int) : Int :=
  (accounts.map (fun a => (a.borrowedBookIds.count j : Int))).sum

/-- Predicate for claim C3: every record's count is nonnegative. -/
def countsNonneg (books : List Book) : Prop :=
  ∀ b ∈ books, 0 ≤ b.count

instance (books : List Book) : Decidable (countsNonneg books) := by
  unfold countsNonneg
  infer_instance

/-! ## Lemmas about `findBookIndex` -/

theorem findBookIndex_spec {books : List Book} {t : String} {idx : Nat}
    (h : findBookIndex books t = some idx) :
    idx < books.length ∧ (books.getD idx defBook).title = t ∧
      ∀ k, k < idx → (books.getD k defBook).title ≠ t := by
  induction books generalizing idx with
  | nil => simp [findBookIndex] at h
  | cons b bs ih =>
    by_cases hb : b.title = t
    · simp [findBookIndex, hb] at h
      subst h
      simpa using hb
    · simp [findBookIndex, hb] at h
      obtain ⟨a, ha, rfl⟩ := h
      obtain ⟨h1, h2, h3⟩ := ih ha
      refine ⟨by simpa using Nat.succ_lt_succ h1, by simpa using h2, ?_⟩
      intro k hk
      cases k with
      | zero => simpa using hb
      | succ k' =>
        simpa using h3 k' (by omega)

theorem findBookIndex_isSome {books : List Book} {t : String}
    (h : ∃ b ∈ books, b.title = t) : (findBookIndex books t).isSome := by
  induction books with
  | nil => simp at h
  | cons b bs ih =>
    by_cases hb : b.title = t
    · simp [findBookIndex, hb]
    · obtain ⟨x, hx, hxt⟩ := h
      rcases List.mem_cons.mp hx with hx | hx
      · subst hx; exact absurd hxt hb
      · have := ih ⟨x, hx, hxt⟩
        simp [findBookIndex, hb]
        simpa [Option.isSome_map] using this

/-- Replacing a record by one with the same title does not change title
resolution. -/
theorem findBookIndex_set_same_title {books : List Book} {idx : Nat}
    {b' : Book} (ht : b'.title = (books.getD idx defBook).title) :
    ∀ t, findBookIndex (books.set idx b') t = findBookIndex books t := by
  induction books generalizing idx with
  | nil => simp
  | cons b bs ih =>
    intro t
    cases idx with
    | zero =>
      simp only [List.getD_cons_zero] at ht
      simp [findBookIndex, ht]
    | succ k =>
      simp only [List.getD_cons_succ] at ht
      simp [findBookIndex, ih ht]

/-! ## Lemmas about `getD` and `set` -/

theorem getD_set_self {l : List α} {i : Nat} {a d : α} (h : i < l.length) :
    (l.set i a).getD i d = a := by
  induction l generalizing i with
  | nil => simp at h
  | cons x xs ih =>
    cases i with
    | zero => simp
    | succ k => simpa using ih (by simpa using h)

theorem getD_set_ne {l : List α} {i k : Nat} {a d : α} (h : i ≠ k) :
    (l.set i a).getD k d = l.getD k d := by
  induction l generalizing i k with
  | nil => simp
  | cons x xs ih =>
    cases i with
    | zero =>
      cases k with
      | zero => exact absurd rfl h
      | succ k' => simp
    | succ i' =>
      cases k with
      | zero => simp
      | succ k' => simpa using ih (by omega)

theorem getD_mem {l : List α} {i : Nat} {d : α} (h : i < l.length) :
    l.getD i d ∈ l := by
  rw [List.getD_eq_getElem l d h]
  exact List.getElem_mem h

/-! ## Lemmas about the conserved quantity -/

theorem stockFor_set {books : List Book} {idx : Nat} (b' : Book) (j : Int)
    (h : idx < books.length) :
    stockFor (books.set idx b') j =
      stockFor books j
        - (if (books.getD idx defBook).id = j then (books.getD idx defBook).count else 0)
        + (if b'.id = j then b'.count else 0) := by
  induction books generalizing idx with
  | nil => simp at h
  | cons b bs ih =>
    cases idx with
    | zero =>
      simp only [List.set_cons_zero, stockFor, List.map_cons, List.sum_cons,
        List.getD_cons_zero]
      ring
    | succ k =>
      have hk : k < bs.length := by simpa using h
      simp only [List.set_cons_succ, stockFor, List.map_cons, List.sum_cons,
        List.getD_cons_succ]
      have := ih hk
      simp only [stockFor] at this
      rw [this]
      ring

theorem outstanding_set {accounts : List Account} {uid : Nat} (a' : Account)
    (j : Int) (h : uid < accounts.length) :
    outstanding (accounts.set uid a') j =
      outstanding accounts j
        - ((accounts.getD uid defAccount).borrowedBookIds.count j : Int)
        + (a'.borrowedBookIds.count j : Int) := by
  induction accounts generalizing uid with
  | nil => simp at h
  | cons a as ih =>
    cases uid with
    | zero =>
      simp only [List.set_cons_zero, outstanding, List.map_cons, List.sum_cons,
        List.getD_cons_zero]
      ring
    | succ k =>
      have hk : k < as.length := by simpa using h
      simp only [List.set_cons_succ, outstanding, List.map_cons, List.sum_cons,
        List.getD_cons_succ]
      have := ih hk
      simp only [outstanding] at this
      rw [this]
      ring

theorem count_append_one (l : List Int) (x j : Int) :
    (((l ++ [x]).count j : Nat) : Int) = (l.count j : Int) + (if j = x then 1 else 0) := by
  by_cases h : j = x <;> simp [List.count_append, List.count_singleton', h]

theorem count_erase_int {l : List Int} {x : Int} (j : Int) (hx : x ∈ l) :
    (((l.erase x).count j : Nat) : Int) =
      (l.count j : Int) - (if j = x then 1 else 0) := by
  by_cases h : j = x
  · subst h
    rw [List.count_erase_self]
    have hpos : 0 < l.count j := List.count_pos_iff.mpr hx
    simp
    omega
  · rw [List.count_erase_of_ne h]
    simp [h]

/-! ## Behaviour of the operations on each control path -/

theorem borrowBook_busy {lock : RWLockState} (books : List Book)
    (accounts : List Account) (uid : Nat) (t : String)
    (hl : lock.writerActive = true ∨ lock.activeReaders > 0) :
    borrowBook lock books accounts uid t = (.busy, lock, books, accounts) := by
  have hlk : tryLockWrite lock = (false, lock) := by
    simp only [tryLockWrite, if_pos (by simpa using hl)]
  simp only [borrowBook, hlk]

theorem borrowBook_ok {lock : RWLockState} {books : List Book}
    {accounts : List Account} {uid : Nat} {t : String} {idx : Nat}
    (hl : ¬(lock.writerActive = true ∨ lock.activeReaders > 0))
    (hf : findBookIndex books t = some idx)
    (hc : (books.getD idx defBook).count > 0) :
    borrowBook lock books accounts uid t =
      (.ok (books.getD idx defBook).id, lock,
       books.set idx
         { books.getD idx defBook with count := (books.getD idx defBook).count - 1 },
       accounts.set uid
         { accounts.getD uid defAccount with
           borrowedBookIds := (accounts.getD uid defAccount).borrowedBookIds
             ++ [(books.getD idx defBook).id] }) := by
  have hw : lock.writerActive = false := by
    rcases not_or.mp hl with ⟨h1, _⟩
    simpa using h1
  have hlk : tryLockWrite lock = (true, { lock with writerActive := true }) := by
    rw [tryLockWrite, if_neg hl]
  have hne : ¬ (books.getD idx defBook).count = 0 := by omega
  simp only [borrowBook, hlk, hf, hne, if_false, hc, if_true, unlockWrite]
  cases lock
  simp_all

theorem returnBook_ok {books : List Book} {accounts : List Account}
    {uid : Nat} {t : String} {idx : Nat}
    (hf : findBookIndex books t = some idx)
    (hmem : (books.getD idx defBook).id ∈
      (accounts.getD uid defAccount).borrowedBookIds) :
    returnBook books accounts uid t =
      (.ok,
       books.set idx
         { books.getD idx defBook with count := (books.getD idx defBook).count + 1 },
       accounts.set uid
         { accounts.getD uid defAccount with
           borrowedBookIds := (accounts.getD uid defAccount).borrowedBookIds.erase
             (books.getD idx defBook).id }) := by
  simp only [returnBook, hf, if_pos hmem]

theorem returnBook_refuse {books : List Book} {accounts : List Account}
    {uid : Nat} {t : String} {idx : Nat}
    (hf : findBookIndex books t = some idx)
    (hmem : (books.getD idx defBook).id ∉
      (accounts.getD uid defAccount).borrowedBookIds) :
    returnBook books accounts uid t = (.notBorrowedByCaller, books, accounts) := by
  simp only [returnBook, hf, if_neg hmem]

theorem borrowBook_notFound {lock : RWLockState} (books : List Book)
    (accounts : List Account) (uid : Nat) (t : String)
    (hl : ¬(lock.writerActive = true ∨ lock.activeReaders > 0))
    (hf : findBookIndex books t = none) :
    borrowBook lock books accounts uid t =
      (.notFound, unlockWrite { lock with writerActive := true }, books, accounts) := by
  have hlk : tryLockWrite lock = (true, { lock with writerActive := true }) := by
    rw [tryLockWrite, if_neg hl]
  simp only [borrowBook, hlk, hf]

theorem borrowBook_waiting {lock : RWLockState} {books : List Book}
    (accounts : List Account) (uid : Nat) {t : String} {idx : Nat}
    (hl : ¬(lock.writerActive = true ∨ lock.activeReaders > 0))
    (hf : findBookIndex books t = some idx)
    (hc : (books.getD idx defBook).count = 0) :
    borrowBook lock books accounts uid t =
      (.waiting, unlockWrite { lock with writerActive := true }, books, accounts) := by
  have hlk : tryLockWrite lock = (true, { lock with writerActive := true }) := by
    rw [tryLockWrite, if_neg hl]
  simp only [borrowBook, hlk, hf, hc, if_pos rfl, if_true]

theorem borrowBook_unavailable {lock : RWLockState} {books : List Book}
    (accounts : List Account) (uid : Nat) {t : String} {idx : Nat}
    (hl : ¬(lock.writerActive = true ∨ lock.activeReaders > 0))
    (hf : findBookIndex books t = some idx)
    (hc : (books.getD idx defBook).count < 0) :
    borrowBook lock books accounts uid t =
      (.unavailable, unlockWrite { lock with writerActive := true }, books, accounts) := by
  have hlk : tryLockWrite lock = (true, { lock with writerActive := true }) := by
    rw [tryLockWrite, if_neg hl]
  have h0 : ¬ (books.getD idx defBook).count = 0 := by omega
  have h1 : ¬ (books.getD idx defBook).count > 0 := by omega
  simp only [borrowBook, hlk, hf, h0, h1, if_false]

theorem returnBook_notFound (books : List Book) (accounts : List Account)
    (uid : Nat) (t : String) (hf : findBookIndex books t = none) :
    returnBook books accounts uid t = (.notFound, books, accounts) := by
  simp only [returnBook, hf]

/-! ## Claim theorems -/

/-- C4: a Borrow whose title resolves to a record with positive count,
issued while the write-lock probe succeeds, returns `Ok` carrying the
item's id, decrements exactly that record's count by one, appends exactly
that id to the borrowing account's ledger, and touches no other record or
ledger. -/
theorem borrow_success_decrements_and_records
    (lock : RWLockState) (books : List Book) (accounts : List Account)
    (uid : Nat) (t : String) (idx : Nat)
    (hu : uid < accounts.length)
    (hl : ¬(lock.writerActive = true ∨ lock.activeReaders > 0))
    (hf : findBookIndex books t = some idx)
    (hc : (books.getD idx defBook).count > 0) :
    (borrowBook lock books accounts uid t).1 = .ok (books.getD idx defBook).id ∧
    ((borrowBook lock books accounts uid t).2.2.1.getD idx defBook).count
      = (books.getD idx defBook).count - 1 ∧
    (∀ k, k ≠ idx → (borrowBook lock books accounts uid t).2.2.1.getD k defBook
      = books.getD k defBook) ∧
    ((borrowBook lock books accounts uid t).2.2.2.getD uid defAccount).borrowedBookIds
      = (accounts.getD uid defAccount).borrowedBookIds
        ++ [(books.getD idx defBook).id] ∧
    (∀ k, k ≠ uid → (borrowBook lock books accounts uid t).2.2.2.getD k defAccount
      = accounts.getD k defAccount) := by
  have hlen : idx < books.length := (findBookIndex_spec hf).1
  rw [borrowBook_ok hl hf hc]
  refine ⟨rfl, ?_, ?_, ?_, ?_⟩
  · rw [getD_set_self hlen]
  · intro k hk
    exact getD_set_ne (fun h => hk h.symm)
  · rw [getD_set_self hu]
  · intro k hk
    exact getD_set_ne (fun h => hk h.symm)

/-- C4 witness: the theorem applied to a one-book catalog and one
account. -/
theorem borrow_success_witness :
    (borrowBook rwInit [⟨"Dune", "Herbert", 1, 1⟩] [defAccount] 0 "Dune").1
        = .ok 1 ∧
    ((borrowBook rwInit [⟨"Dune", "Herbert", 1, 1⟩] [defAccount] 0
        "Dune").2.2.1.getD 0 defBook).count = 0 ∧
    ((borrowBook rwInit [⟨"Dune", "Herbert", 1, 1⟩] [defAccount] 0
        "Dune").2.2.2.getD 0 defAccount).borrowedBookIds = [1] := by
  have h := borrow_success_decrements_and_records rwInit
    [⟨"Dune", "Herbert", 1, 1⟩] [defAccount] 0 "Dune" 0
    (by decide) (by decide) (by decide) (by decide)
  refine ⟨by simpa using h.1, by simpa using h.2.1, by simpa using h.2.2.2.1⟩

/-- C5: a Borrow issued while the non-blocking probe fails (a writer is
active or any reader is active) returns `busy` with the lock, the catalog
and every ledger unchanged — the caller is never queued behind the busy
lock. -/
theorem borrow_busy_is_noop
    (lock : RWLockState) (books : List Book) (accounts : List Account)
    (uid : Nat) (t : String)
    (hl : lock.writerActive = true ∨ lock.activeReaders > 0) :
    borrowBook lock books accounts uid t = (.busy, lock, books, accounts) :=
  borrowBook_busy books accounts uid t hl

/-- C5 witness: probing a lock with an active writer. -/
theorem borrow_busy_witness :
    borrowBook ⟨0, 0, true⟩ [⟨"Dune", "Herbert", 1, 1⟩] [defAccount] 0 "Dune"
      = (.busy, ⟨0, 0, true⟩, [⟨"Dune", "Herbert", 1, 1⟩], [defAccount]) :=
  borrow_busy_is_noop ⟨0, 0, true⟩ [⟨"Dune", "Herbert", 1, 1⟩] [defAccount] 0
    "Dune" (Or.inl rfl)

/-- C9: the `LockMonitor` deadlock heuristic reports `suspect` exactly when
the three resource-busy flags are simultaneously set, and `clear` in every
other state. -/
theorem checkDeadlocks_suspect_iff (m : LockMonitor) :
    (checkDeadlocks m = .suspect ↔
      m.patientLock = true ∧ m.appointmentLock = true ∧ m.recordLock = true) ∧
    (checkDeadlocks m = .clear ↔
      ¬(m.patientLock = true ∧ m.appointmentLock = true ∧ m.recordLock = true)) := by
  obtain ⟨p, a, r⟩ := m
  cases p <;> cases a <;> cases r <;> simp [checkDeadlocks]

/-- C10: AddItem (`addBook`) appends unconditionally (no title-uniqueness check), and
every title lookup resolves to the earliest matching record: the resolved
index bears the title and every smaller index does not; a title present in
the catalog always resolves; and resolution never lands on the later of two
records sharing a title. -/
theorem duplicate_titles_resolve_earliest :
    (∀ (books : List Book) (t a : String) (c : Int),
       (addBook books t a c).1
         = books ++ [⟨t, a, c, (books.length : Int) + 1⟩]) ∧
    (∀ (books : List Book) (t : String) (idx : Nat),
       findBookIndex books t = some idx →
         idx < books.length ∧ (books.getD idx defBook).title = t ∧
           ∀ k, k < idx → (books.getD k defBook).title ≠ t) ∧
    (∀ (books : List Book) (t : String),
       (∃ b ∈ books, b.title = t) → (findBookIndex books t).isSome) ∧
    (∀ (books : List Book) (t : String) (i j : Nat),
       i < j → (books.getD i defBook).title = t →
         findBookIndex books t ≠ some j) := by
  refine ⟨fun books t a c => rfl, fun books t idx h => findBookIndex_spec h,
    fun books t h => findBookIndex_isSome h, ?_⟩
  intro books t i j hij hi hcontra
  exact (findBookIndex_spec hcontra).2.2 i hij hi

/-- C10 witness: a catalog holding two records titled "D"; lookup resolves
to index 0, never to index 1, and adding yet another record succeeds. -/
theorem duplicate_titles_witness :
    (addBook [⟨"D", "a", 1, 1⟩, ⟨"D", "b", 2, 2⟩] "E" "e" 3).1
        = [⟨"D", "a", 1, 1⟩, ⟨"D", "b", 2, 2⟩, ⟨"E", "e", 3, 3⟩] ∧
    (([⟨"D", "a", 1, 1⟩, ⟨"D", "b", 2, 2⟩] : List Book).getD 0 defBook).title
        = "D" ∧
    (findBookIndex [⟨"D", "a", 1, 1⟩, ⟨"D", "b", 2, 2⟩] "D").isSome ∧
    findBookIndex [⟨"D", "a", 1, 1⟩, ⟨"D", "b", 2, 2⟩] "D" ≠ some 1 := by
  have h := duplicate_titles_resolve_earliest
  refine ⟨by simpa using h.1 [⟨"D", "a", 1, 1⟩, ⟨"D", "b", 2, 2⟩] "E" "e" 3,
    ?_, h.2.2.1 [⟨"D", "a", 1, 1⟩, ⟨"D", "b", 2, 2⟩] "D"
      ⟨⟨"D", "a", 1, 1⟩, by simp, rfl⟩,
    h.2.2.2 [⟨"D", "a", 1, 1⟩, ⟨"D", "b", 2, 2⟩] "D" 0 1 (by decide) rfl⟩
  exact (h.2.1 [⟨"D", "a", 1, 1⟩, ⟨"D", "b", 2, 2⟩] "D" 0 (by decide)).2.1

/-- C7: the non-blocking write probe succeeds exactly when no reader and no
writer is active; success sets the active-writer flag and failure changes
nothing, and in neither case does the waiting-writer count move. -/
theorem tryLockWrite_probe_spec (s : RWLockState) (hr : 0 ≤ s.activeReaders) :
    (((tryLockWrite s).1 = true) ↔
      (s.activeReaders = 0 ∧ s.writerActive = false)) ∧
    ((tryLockWrite s).1 = true →
      (tryLockWrite s).2 = { s with writerActive := true }) ∧
    ((tryLockWrite s).1 = false → (tryLockWrite s).2 = s) ∧
    (tryLockWrite s).2.waitingWriters = s.waitingWriters := by
  obtain ⟨ar, ww, wa⟩ := s
  simp only at hr
  cases wa
  · by_cases har : ar > 0
    · have hlk : tryLockWrite ⟨ar, ww, false⟩ = (false, ⟨ar, ww, false⟩) := by
        rw [tryLockWrite, if_pos (Or.inr har)]
      rw [hlk]
      simp
      omega
    · have hz : ar = 0 := by omega
      subst hz
      have hlk : tryLockWrite ⟨0, ww, false⟩ = (true, ⟨0, ww, true⟩) := by
        rw [tryLockWrite, if_neg (by simp)]
      rw [hlk]
      simp
  · have hlk : tryLockWrite ⟨ar, ww, true⟩ = (false, ⟨ar, ww, true⟩) := by
      rw [tryLockWrite, if_pos (Or.inl rfl)]
    rw [hlk]
    simp

/-- C7 witness: probing the freshly constructed lock. -/
theorem tryLockWrite_probe_witness :
    (0 : Int) ≤ rwInit.activeReaders ∧
    ((((tryLockWrite rwInit).1 = true) ↔
      (rwInit.activeReaders = 0 ∧ rwInit.writerActive = false)) ∧
    ((tryLockWrite rwInit).1 = true →
      (tryLockWrite rwInit).2 = { rwInit with writerActive := true }) ∧
    ((tryLockWrite rwInit).1 = false → (tryLockWrite rwInit).2 = rwInit) ∧
    (tryLockWrite rwInit).2.waitingWriters = rwInit.waitingWriters) :=
  ⟨by decide, tryLockWrite_probe_spec rwInit (by decide)⟩

/-- C8: along the step relation of the reader/writer lock, a read-acquire
fires only in states with no active writer and no waiting writer, and then
increments the active-reader count; it can never fire while a writer is
active or waiting (writer preference). -/
theorem readAcquire_needs_no_writers :
    (∀ s s' : RWLockState, RWReachable s → RWStep .readAcquire s s' →
       s.writerActive = false ∧ s.waitingWriters = 0 ∧
       s'.activeReaders = s.activeReaders + 1 ∧
       s'.writerActive = false ∧ s'.waitingWriters = 0) ∧
    (∀ s s' : RWLockState, (s.writerActive = true ∨ s.waitingWriters ≠ 0) →
       ¬ RWStep .readAcquire s s') := by
  constructor
  · intro s s' _ hstep
    cases hstep with
    | readAcquire _ h => exact ⟨h.1, h.2, rfl, h.1, h.2⟩
  · intro s s' hbad hstep
    cases hstep with
    | readAcquire _ h =>
      rcases hbad with hb | hb
      · rw [h.1] at hb
        exact Bool.false_ne_true hb
      · exact hb h.2

/-- C8 witness: the first read-acquire from the initial lock state. -/
theorem readAcquire_witness :
    RWReachable rwInit ∧
    RWStep .readAcquire rwInit
      { rwInit with activeReaders := rwInit.activeReaders + 1 } ∧
    (rwInit.writerActive = false ∧ rwInit.waitingWriters = 0 ∧
      ({ rwInit with activeReaders := rwInit.activeReaders + 1 } :
        RWLockState).activeReaders = rwInit.activeReaders + 1 ∧
      ({ rwInit with activeReaders := rwInit.activeReaders + 1 } :
        RWLockState).writerActive = false ∧
      ({ rwInit with activeReaders := rwInit.activeReaders + 1 } :
        RWLockState).waitingWriters = 0) := by
  have hreach : RWReachable rwInit := Relation.ReflTransGen.refl
  have hstep : RWStep .readAcquire rwInit
      { rwInit with activeReaders := rwInit.activeReaders + 1 } :=
    RWStep.readAcquire rwInit ⟨rfl, rfl⟩
  exact ⟨hreach, hstep, readAcquire_needs_no_writers.1 _ _ hreach hstep⟩

/-- C1: for every item id, the catalog stock carried by records with that
id plus the outstanding loans of that id across all ledgers is unchanged
by a successful Borrow and by a successful Return. -/
theorem borrow_return_conservation :
    (∀ (lock : RWLockState) (books : List Book) (accounts : List Account)
       (uid : Nat) (t : String) (idx : Nat) (r : BorrowResult)
       (l' : RWLockState) (books' : List Book) (accounts' : List Account),
       uid < accounts.length →
       ¬(lock.writerActive = true ∨ lock.activeReaders > 0) →
       findBookIndex books t = some idx →
       (books.getD idx defBook).count > 0 →
       borrowBook lock books accounts uid t = (r, l', books', accounts') →
       ∀ j : Int, stockFor books' j + outstanding accounts' j
         = stockFor books j + outstanding accounts j) ∧
    (∀ (books : List Book) (accounts : List Account) (uid : Nat) (t : String)
       (idx : Nat) (r : ReturnResult) (books' : List Book)
       (accounts' : List Account),
       uid < accounts.length →
       findBookIndex books t = some idx →
       (books.getD idx defBook).id ∈
         (accounts.getD uid defAccount).borrowedBookIds →
       returnBook books accounts uid t = (r, books', accounts') →
       ∀ j : Int, stockFor books' j + outstanding accounts' j
         = stockFor books j + outstanding accounts j) := by
  constructor
  · intro lock books accounts uid t idx r l' books' accounts' hu hl hf hc heq j
    rw [borrowBook_ok hl hf hc] at heq
    simp only [Prod.mk.injEq] at heq
    obtain ⟨-, -, rfl, rfl⟩ := heq
    have hlen : idx < books.length := (findBookIndex_spec hf).1
    rw [stockFor_set _ j hlen, outstanding_set _ j hu]
    simp only
    rw [count_append_one]
    by_cases hj : (books.getD idx defBook).id = j
    · rw [if_pos hj, if_pos hj, if_pos hj.symm]
      ring
    · rw [if_neg hj, if_neg hj, if_neg (fun hh => hj hh.symm)]
      ring
  · intro books accounts uid t idx r books' accounts' hu hf hmem heq j
    rw [returnBook_ok hf hmem] at heq
    simp only [Prod.mk.injEq] at heq
    obtain ⟨-, rfl, rfl⟩ := heq
    have hlen : idx < books.length := (findBookIndex_spec hf).1
    rw [stockFor_set _ j hlen, outstanding_set _ j hu]
    simp only
    rw [count_erase_int j hmem]
    by_cases hj : (books.getD idx defBook).id = j
    · rw [if_pos hj, if_pos hj, if_pos hj.symm]
      ring
    · rw [if_neg hj, if_neg hj, if_neg (fun hh => hj hh.symm)]
      ring

/-- C1 witness: borrowing the single copy of "Dune" conserves
stock-plus-loans for id 1. -/
theorem borrow_return_conservation_witness :
    (0 : Nat) < 1 ∧
    ¬(rwInit.writerActive = true ∨ rwInit.activeReaders > 0) ∧
    findBookIndex [⟨"Dune", "H", 1, 1⟩] "Dune" = some 0 ∧
    (([⟨"Dune", "H", 1, 1⟩] : List Book).getD 0 defBook).count > 0 ∧
    borrowBook rwInit [⟨"Dune", "H", 1, 1⟩] [defAccount] 0 "Dune"
      = (.ok 1, rwInit, [⟨"Dune", "H", 0, 1⟩],
         [{ defAccount with borrowedBookIds := [1] }]) ∧
    stockFor [⟨"Dune", "H", 0, 1⟩] 1
        + outstanding [{ defAccount with borrowedBookIds := [1] }] 1
      = stockFor [⟨"Dune", "H", 1, 1⟩] 1 + outstanding [defAccount] 1 := by
  refine ⟨by decide, by decide, by decide, by decide, by decide, ?_⟩
  exact borrow_return_conservation.1 rwInit [⟨"Dune", "H", 1, 1⟩] [defAccount]
    0 "Dune" 0 (.ok 1) rwInit [⟨"Dune", "H", 0, 1⟩]
    [{ defAccount with borrowedBookIds := [1] }]
    (by decide) (by decide) (by decide) (by decide) (by decide) 1

/-- C2: a Return whose resolved item id is absent from the caller's ledger
is rejected with `notBorrowedByCaller` and the whole state is unchanged;
consequently, after returning the single unmatched borrow of an item, a
second Return by the same account is rejected and again changes nothing. -/
theorem return_unborrowed_rejected :
    (∀ (books : List Book) (accounts : List Account) (uid : Nat)
       (t : String) (idx : Nat),
       findBookIndex books t = some idx →
       (books.getD idx defBook).id ∉
         (accounts.getD uid defAccount).borrowedBookIds →
       returnBook books accounts uid t
         = (.notBorrowedByCaller, books, accounts)) ∧
    (∀ (books : List Book) (accounts : List Account) (uid : Nat)
       (t : String) (idx : Nat),
       uid < accounts.length →
       findBookIndex books t = some idx →
       (accounts.getD uid defAccount).borrowedBookIds.count
         (books.getD idx defBook).id = 1 →
       (returnBook books accounts uid t).1 = .ok ∧
       returnBook (returnBook books accounts uid t).2.1
           (returnBook books accounts uid t).2.2 uid t
         = (.notBorrowedByCaller, (returnBook books accounts uid t).2.1,
            (returnBook books accounts uid t).2.2)) := by
  constructor
  · intro books accounts uid t idx hf hmem
    exact returnBook_refuse hf hmem
  · intro books accounts uid t idx hu hf hcnt
    have hlen : idx < books.length := (findBookIndex_spec hf).1
    have hmem : (books.getD idx defBook).id ∈
        (accounts.getD uid defAccount).borrowedBookIds := by
      rw [← List.count_pos_iff]
      omega
    have h1 := returnBook_ok hf hmem
    rw [h1]
    refine ⟨rfl, ?_⟩
    have ht : ({ books.getD idx defBook with
        count := (books.getD idx defBook).count + 1 } : Book).title
        = (books.getD idx defBook).title := rfl
    have hf2 : findBookIndex
        (books.set idx
          { books.getD idx defBook with
            count := (books.getD idx defBook).count + 1 }) t = some idx :=
      (findBookIndex_set_same_title ht t).trans hf
    have hnot : (books.getD idx defBook).id ∉
        ((accounts.getD uid defAccount).borrowedBookIds.erase
          (books.getD idx defBook).id) := by
      intro hmem2
      have hpos := List.count_pos_iff.mpr hmem2
      rw [List.count_erase_self] at hpos
      omega
    have hm2 : ((books.set idx
        { books.getD idx defBook with
          count := (books.getD idx defBook).count + 1 }).getD idx defBook).id ∉
        ((accounts.set uid
          { accounts.getD uid defAccount with
            borrowedBookIds :=
              (accounts.getD uid defAccount).borrowedBookIds.erase
                (books.getD idx defBook).id }).getD uid
          defAccount).borrowedBookIds := by
      rw [getD_set_self hlen, getD_set_self hu]
      exact hnot
    exact returnBook_refuse hf2 hm2

/-- C2 witness: returning "Dune" once succeeds; the immediate second
Return is rejected and changes nothing. -/
theorem return_unborrowed_witness :
    (0 : Nat) < 1 ∧
    findBookIndex [⟨"Dune", "H", 1, 1⟩] "Dune" = some 0 ∧
    (([{ defAccount with borrowedBookIds := [1] }] :
        List Account).getD 0 defAccount).borrowedBookIds.count
      (([⟨"Dune", "H", 1, 1⟩] : List Book).getD 0 defBook).id = 1 ∧
    ((returnBook [⟨"Dune", "H", 1, 1⟩]
        [{ defAccount with borrowedBookIds := [1] }] 0 "Dune").1 = .ok ∧
      returnBook
          (returnBook [⟨"Dune", "H", 1, 1⟩]
            [{ defAccount with borrowedBookIds := [1] }] 0 "Dune").2.1
          (returnBook [⟨"Dune", "H", 1, 1⟩]
            [{ defAccount with borrowedBookIds := [1] }] 0 "Dune").2.2 0 "Dune"
        = (.notBorrowedByCaller,
           (returnBook [⟨"Dune", "H", 1, 1⟩]
             [{ defAccount with borrowedBookIds := [1] }] 0 "Dune").2.1,
           (returnBook [⟨"Dune", "H", 1, 1⟩]
             [{ defAccount with borrowedBookIds := [1] }] 0 "Dune").2.2)) := by
  refine ⟨by decide, by decide, by decide, ?_⟩
  exact return_unborrowed_rejected.2 [⟨"Dune", "H", 1, 1⟩]
    [{ defAccount with borrowedBookIds := [1] }] 0 "Dune" 0
    (by decide) (by decide) (by decide)


theorem mem_of_mem_eraseIdx {l : List α} {i : Nat} {x : α}
    (h : x ∈ l.eraseIdx i) : x ∈ l := by
  induction l generalizing i with
  | nil => simp at h
  | cons a as ih =>
    cases i with
    | zero => exact List.mem_cons_of_mem a h
    | succ k =>
      rw [List.eraseIdx_cons_succ] at h
      rcases List.mem_cons.mp h with h | h
      · exact h ▸ List.mem_cons_self a as
      · exact List.mem_cons_of_mem a (ih h)

/-- C3 counterexample: the code of `addBook` performs no quantity validation, so adding
a record with quantity `-1` leaves the catalog with a negative count. -/
theorem addBook_negative_count_cex :
    ¬ countsNonneg (addBook [] "A" "B" (-1)).1 := by decide

/-- C3 (amended): provided every quantity fed to AddItem/UpdateItem is
nonnegative, each of the five operations preserves nonnegativity of all
counts; Borrow decrements only a strictly positive count and Return only
increments. -/
theorem counts_nonneg_preserved :
    (∀ (books : List Book) (t a : String) (c : Int), 0 ≤ c →
       countsNonneg books → countsNonneg (addBook books t a c).1) ∧
    (∀ (books : List Book) (t nt na : String) (nc : Int), 0 ≤ nc →
       countsNonneg books → countsNonneg (updateBook books t nt na nc).2) ∧
    (∀ (books : List Book) (t : String),
       countsNonneg books → countsNonneg (removeBook books t).2) ∧
    (∀ (lock : RWLockState) (books : List Book) (accounts : List Account)
       (uid : Nat) (t : String),
       countsNonneg books →
       countsNonneg (borrowBook lock books accounts uid t).2.2.1) ∧
    (∀ (books : List Book) (accounts : List Account) (uid : Nat)
       (t : String),
       countsNonneg books → countsNonneg (returnBook books accounts uid t).2.1) := by
  refine ⟨?_, ?_, ?_, ?_, ?_⟩
  · intro books t a c hc hnn b hb
    rcases List.mem_append.mp hb with h | h
    · exact hnn b h
    · rw [List.mem_singleton.mp h]
      exact hc
  · intro books t nt na nc hc hnn
    cases hfind : findBookIndex books t with
    | none => simpa [updateBook, hfind] using hnn
    | some idx =>
      simp only [updateBook, hfind]
      intro b hb
      rcases List.mem_or_eq_of_mem_set hb with h | h
      · exact hnn b h
      · rw [h]
        exact hc
  · intro books t hnn
    cases hfind : findBookIndex books t with
    | none => simpa [removeBook, hfind] using hnn
    | some idx =>
      simp only [removeBook, hfind]
      intro b hb
      exact hnn b (mem_of_mem_eraseIdx hb)
  · intro lock books accounts uid t hnn
    by_cases hbusy : lock.writerActive = true ∨ lock.activeReaders > 0
    · simpa [borrowBook_busy books accounts uid t hbusy] using hnn
    · cases hfind : findBookIndex books t with
      | none => simpa [borrowBook_notFound books accounts uid t hbusy hfind] using hnn
      | some idx =>
        rcases lt_trichotomy (books.getD idx defBook).count 0 with hc | hc | hc
        · simpa [borrowBook_unavailable accounts uid hbusy hfind hc] using hnn
        · simpa [borrowBook_waiting accounts uid hbusy hfind hc] using hnn
        · simp only [borrowBook_ok hbusy hfind hc]
          intro b hb
          rcases List.mem_or_eq_of_mem_set hb with h | h
          · exact hnn b h
          · rw [h]
            have hv : ({ books.getD idx defBook with
                count := (books.getD idx defBook).count - 1 } : Book).count
                = (books.getD idx defBook).count - 1 := rfl
            rw [hv]
            omega
  · intro books accounts uid t hnn
    cases hfind : findBookIndex books t with
    | none => simpa [returnBook_notFound books accounts uid t hfind] using hnn
    | some idx =>
      by_cases hmem : (books.getD idx defBook).id ∈
          (accounts.getD uid defAccount).borrowedBookIds
      · simp only [returnBook_ok hfind hmem]
        intro b hb
        rcases List.mem_or_eq_of_mem_set hb with h | h
        · exact hnn b h
        · rw [h]
          have hv : ({ books.getD idx defBook with
              count := (books.getD idx defBook).count + 1 } : Book).count
              = (books.getD idx defBook).count + 1 := rfl
          rw [hv]
          by_cases hlen : idx < books.length
          · have hbmem : books.getD idx defBook ∈ books :=
              @getD_mem Book books idx defBook hlen
            have := hnn _ hbmem
            omega
          · rw [List.getD_eq_default _ _ (by omega)]
            norm_num [defBook]
      · simpa [returnBook_refuse hfind hmem] using hnn

/-- C3 witness: adding a book with a nonnegative quantity to a catalog
with nonnegative counts keeps every count nonnegative. -/
theorem counts_nonneg_witness :
    (0 : Int) ≤ 2 ∧ countsNonneg [(⟨"A", "X", 1, 1⟩ : Book)] ∧
    countsNonneg (addBook [(⟨"A", "X", 1, 1⟩ : Book)] "B" "Y" 2).1 :=
  ⟨by decide, by decide,
   counts_nonneg_preserved.1 [⟨"A", "X", 1, 1⟩] "B" "Y" 2 (by decide) (by decide)⟩

/-- C6 counterexample: add "A" (id 1) and "B" (id 2), remove "B", then add
"C": the new id is `size + 1 = 2`, the very id previously assigned to the
since-removed record "B" -- ids are reissued. -/
theorem addBook_reissues_removed_id :
    (addBook (removeBook (addBook (addBook [] "A" "X" 1).1 "B" "Y" 1).1
        "B").2 "C" "Z" 1).2
      = ((addBook (addBook [] "A" "X" 1).1 "B" "Y" 1).1.getD 1 defBook).id ∧
    removeBook (addBook (addBook [] "A" "X" 1).1 "B" "Y" 1).1 "B"
      = (.ok, (addBook [] "A" "X" 1).1) := by decide

/-- C6 (amended): AddItem always succeeds, appends exactly one record with
the given fields while leaving existing records untouched, and returns the
id `current size + 1`; since the size shrinks on removal, this id is not
drawn from a strictly increasing counter and may repeat one assigned to a
since-removed record. -/
theorem addBook_appends_size_id :
    ∀ (books : List Book) (t a : String) (c : Int),
      (addBook books t a c).1.length = books.length + 1 ∧
      (addBook books t a c).1.getD books.length defBook
        = ⟨t, a, c, (books.length : Int) + 1⟩ ∧
      (addBook books t a c).2 = (books.length : Int) + 1 ∧
      ∀ k, k < books.length →
        (addBook books t a c).1.getD k defBook = books.getD k defBook := by
  intro books t a c
  refine ⟨by simp [addBook], ?_, rfl, ?_⟩
  · rw [addBook]
    rw [List.getD_append_right books [⟨t, a, c, (books.length : Int) + 1⟩]
      defBook books.length le_rfl]
    simp
  · intro k hk
    rw [addBook]
    exact List.getD_append books [⟨t, a, c, (books.length : Int) + 1⟩]
      defBook k hk

/-- C6 witness: appending to a one-record catalog places the new record at
index 1 with id 2 and leaves index 0 untouched. -/
theorem addBook_appends_witness :
    (addBook [(⟨"A", "X", 1, 1⟩ : Book)] "C" "Z" 2).1.length = 2 ∧
    (addBook [(⟨"A", "X", 1, 1⟩ : Book)] "C" "Z" 2).2 = 2 ∧
    (0 : Nat) < 1 ∧
    (addBook [(⟨"A", "X", 1, 1⟩ : Book)] "C" "Z" 2).1.getD 0 defBook
      = ⟨"A", "X", 1, 1⟩ := by
  have h := addBook_appends_size_id [⟨"A", "X", 1, 1⟩] "C" "Z" 2
  exact ⟨h.1, by simpa using h.2.2.1, by decide,
    by simpa using h.2.2.2 0 (by decide)⟩

end MP2
